import Mathlib

/-!
Verification of `taskgraph/util/vcs.py`: a uniform abstraction over two
version-control backends (Mercurial and Git) plus a retrying pushlog lookup.

Each Python method is embedded as a pure Lean function.  Effects are made
explicit: subprocess invocation becomes an oracle `run : List String → String`
mapping an argument vector to the captured output (or an `Except` value where
the Python code catches a `CalledProcessError`), the filesystem becomes a pair
of predicates, and the HTTP client becomes an oracle indexed by attempt number.
Python string operations (`splitlines`, `strip`, `split("/")`, slicing) are
modelled character-for-character below.
-/

set_option autoImplicit false

namespace Vcs

/-- Whitespace characters stripped by Python `str.strip()` (ASCII subset). -/
def pyWhitespace (c : Char) : Bool :=
  c = ' ' || c = '\t' || c = '\n' || c = '\r' || c = '\x0b' || c = '\x0c'

/-- Character-list model of Python `str.strip()`: remove leading and trailing
whitespace. -/
def stripList (l : List Char) : List Char :=
  ((l.dropWhile pyWhitespace).reverse.dropWhile pyWhitespace).reverse

/-- Python `str.strip()` with no argument. -/
def pyStrip (s : String) : String :=
  String.mk (stripList s.data)

/-- Helper for `pySplitlines`: walk the characters, emitting a line at each
line terminator; a trailing terminator does not produce an extra empty line. -/
def pySplitlinesAux : List Char → List Char → List String
  | [], acc => if acc.isEmpty then [] else [String.mk acc.reverse]
  | '\r' :: '\n' :: rest, acc => String.mk acc.reverse :: pySplitlinesAux rest []
  | '\r' :: rest, acc => String.mk acc.reverse :: pySplitlinesAux rest []
  | '\n' :: rest, acc => String.mk acc.reverse :: pySplitlinesAux rest []
  | c :: rest, acc => pySplitlinesAux rest (c :: acc)

/-- Python `str.splitlines()` (restricted to the terminators that occur in
subprocess output: LF, CR, CRLF). -/
def pySplitlines (s : String) : List String :=
  pySplitlinesAux s.data []

/-- Helper for `pySplitSlash`. -/
def pySplitSlashAux : List Char → List Char → List String
  | [], acc => [String.mk acc.reverse]
  | '/' :: rest, acc => String.mk acc.reverse :: pySplitSlashAux rest []
  | c :: rest, acc => pySplitSlashAux rest (c :: acc)

/-- Python `str.split("/")`: always returns at least one component. -/
def pySplitSlash (s : String) : List String :=
  pySplitSlashAux s.data []

/-- Python slicing `s[1:]`: drop the first character. -/
def pyDropFirst (s : String) : String :=
  String.mk s.data.tail

/-- One entry of the pushlog JSON "pushes" mapping: the fields the code reads. -/
structure PushEntry where
  date : Int
  user : String
  deriving Repr, DecidableEq

/-- Return value of `find_hg_revision_push_info`. -/
structure PushInfo where
  pushdate : Int
  pushid : String
  user : String
  deriving Repr, DecidableEq

/-- Errors raised by the module, carrying the same data as the Python
exception messages. -/
inductive VcsError where
  /-- `subprocess.CalledProcessError` with the given return code, re-raised. -/
  | calledProcess (returncode : Nat)
  /-- "Cannot determine remote repository name. Candidate remotes: ..." -/
  | ambiguousRemote (remotes : List String)
  /-- "Unable to find default branch. Got: ..." -/
  | defaultBranchNotFound (branches : List String)
  /-- "Current directory is neither a git or hg repository" -/
  | repositoryNotFound
  /-- "Unable to find a single pushlog_id for \x7brepository} revision
  \x7brevision}: \x7bpushes}" -/
  | ambiguousPushInfo (repository : String) (revision : String)
      (pushes : List (String × PushEntry))
  /-- Network or HTTP failure surfaced after the retry loop is exhausted. -/
  | network (msg : String)
  deriving Repr, DecidableEq

/-- Final parsing stage of `find_hg_revision_push_info` (vcs.py lines
306-317), applied to the decoded "pushes" mapping of the chosen response: a
singleton mapping is the `len(pushes) == 1` success case, anything else raises
the ambiguity error naming the repository, the revision and the whole
mapping. -/
def find_hg_revision_push_info (repository revision : String)
    (pushes : List (String × PushEntry)) : Except VcsError PushInfo :=
  match pushes with
  | [(pushid, entry)] =>
      Except.ok { pushdate := entry.date, pushid := pushid, user := entry.user }
  | _ => Except.error (.ambiguousPushInfo repository revision pushes)

namespace HgRepository

/-- Argument vector of the `head_rev` query (vcs.py line 93). -/
def hgHeadRevArgs : List String := ["log", "-r", ".", "-T", "{node}"]

/-- `HgRepository.head_rev`: run the template query and strip the output. -/
def head_rev (run : List String → String) : String :=
  pyStrip (run hgHeadRevArgs)

/-- Argument vector of the `base_rev` query (vcs.py line 97). -/
def hgBaseRevArgs : List String :=
  ["log", "-r", "last(ancestors(.) and public())", "-T", "{node}"]

/-- `HgRepository.base_rev`: run the template query; the output is returned
verbatim, with no `.strip()` (vcs.py lines 95-97). -/
def base_rev (run : List String → String) : String :=
  run hgBaseRevArgs

/-- Argument vector of the log query issued by `get_commit_message`
(vcs.py line 133). -/
def hgCommitMessageArgs : List String := ["log", "-r", ".", "-T", "{desc}"]

/-- `HgRepository.get_commit_message` (vcs.py lines 131-133): the `revision`
parameter is folded into a local that the subsequent log query never uses. -/
def get_commit_message (run : List String → String) (revision : Option String) :
    String :=
  let _revision := revision.getD (head_rev run)
  run hgCommitMessageArgs

/-- Status argument vector built by `HgRepository.working_directory_clean`
(vcs.py lines 136-140). -/
def hgStatusArgs (untracked ignored : Bool) : List String :=
  let args := ["status", "--modified", "--added", "--removed", "--deleted"]
  let args := if untracked then args ++ ["--unknown"] else args
  let args := if ignored then args ++ ["--ignored"] else args
  args

/-- `HgRepository.working_directory_clean` (vcs.py lines 135-144):
`not len(self.run(*args).strip())`, i.e. clean iff the stripped status output
has length zero. -/
def working_directory_clean (run : List String → String)
    (untracked ignored : Bool) : Bool :=
  (pyStrip (run (hgStatusArgs untracked ignored))).length == 0

end HgRepository

namespace GitRepository

/-- Argument vector of the `head_rev` query (vcs.py line 157). -/
def gitHeadRevArgs : List String := ["rev-parse", "--verify", "HEAD"]

/-- `GitRepository.head_rev`: run `rev-parse` and strip the output. -/
def head_rev (run : List String → String) : String :=
  pyStrip (run gitHeadRevArgs)

/-- Argument vector of the `rev-list` query issued by `base_rev`
(vcs.py lines 161-163). -/
def gitRevListArgs : List String :=
  ["rev-list", "HEAD", "--topo-order", "--boundary", "--not", "--remotes"]

/-- `GitRepository.base_rev` (vcs.py lines 159-166): split the rev-list output
into lines; if non-empty, return the last line with its first character
sliced off (`refs[-1][1:]`), else fall back to `head_rev`. -/
def base_rev (run : List String → String) : String :=
  let refs := pySplitlines (run gitRevListArgs)
  match refs.getLast? with
  | some last => pyDropFirst last
  | none => head_rev run

/-- `GitRepository.remote_name` (vcs.py lines 172-194).  `upstream` is the
outcome of `git rev-parse --verify --abbrev-ref --symbolic-full-name @{u}`:
either its stripped-ready output or the `CalledProcessError` return code. -/
def remote_name (upstream : Except Nat String) (run : List String → String) :
    Except VcsError String :=
  match upstream with
  | .ok remote_branch_name =>
      Except.ok ((pySplitSlash (pyStrip remote_branch_name)).headD "")
  | .error returncode =>
      if returncode ≠ 128 then Except.error (.calledProcess returncode)
      else
        let remotes := pySplitlines (run ["remote"])
        if remotes.length = 1 then Except.ok (remotes.headD "")
        else if remotes.contains "origin" then Except.ok "origin"
        else Except.error (.ambiguousRemote remotes)

/-- Argument vector of the log query issued by `get_commit_message`
(vcs.py line 253). -/
def gitCommitMessageArgs : List String := ["log", "-n1", "--format=%B"]

/-- `GitRepository.get_commit_message` (vcs.py lines 251-253): the `revision`
parameter is folded into a local that the subsequent log query never uses. -/
def get_commit_message (run : List String → String) (revision : Option String) :
    String :=
  let _revision := revision.getD (head_rev run)
  run gitCommitMessageArgs

/-- Status argument vector built by `GitRepository.working_directory_clean`
(vcs.py lines 256-267). -/
def gitStatusArgs (untracked ignored : Bool) : List String :=
  let args := ["status", "--porcelain"]
  let args := if untracked then args ++ ["--untracked-files=all"]
              else args ++ ["--untracked-files=no"]
  let args := if ignored then args ++ ["--ignored"] else args
  args

/-- `GitRepository.working_directory_clean` (vcs.py lines 255-271):
`not len(self.run(*args).strip())`, i.e. clean iff the stripped status output
has length zero. -/
def working_directory_clean (run : List String → String)
    (untracked ignored : Bool) : Bool :=
  (pyStrip (run (gitStatusArgs untracked ignored))).length == 0

/-- Argument vector of the branch listing used by `_guess_default_branch`
(vcs.py lines 236-238). -/
def gitBranchListArgs : List String :=
  ["branch", "--all", "--no-color", "--format=%(refname:short)"]

/-- The list comprehension of `_guess_default_branch` (vcs.py lines 234-241):
the outer loop ranges over the listing's lines, the inner loop over the
candidates `("main", "master")`, keeping each candidate equal to the stripped
line. -/
def guessBranchCandidates (output : String) : List String :=
  (pySplitlines output).flatMap
    (fun line => ["main", "master"].filter (fun candidate => candidate == pyStrip line))

/-- `GitRepository._guess_default_branch` (vcs.py lines 233-246): first
collected candidate, else the default-branch-not-found error carrying the
(empty) candidate list. -/
def guess_default_branch (run : List String → String) : Except VcsError String :=
  let branches := guessBranchCandidates (run gitBranchListArgs)
  match branches with
  | b :: _ => Except.ok b
  | [] => Except.error (.defaultBranchNotFound branches)

end GitRepository

/-- Filesystem oracle: the two `os.path` tests used by `get_repository`. -/
structure FileSystem where
  isdir : String → Bool
  pathExists : String → Bool

/-- Model of `os.path.join(path, child)` for the fixed child names used here. -/
def joinPath (path child : String) : String := path ++ "/" ++ child

/-- Backend chosen by `get_repository`, carrying the ancestor path it was
instantiated at. -/
inductive RepoBackend where
  | hg (path : String)
  | git (path : String)
  deriving Repr, DecidableEq

/-- Modelled from the spec: `ancestors` (imported from `taskgraph.util.path`,
which is not part of this unit) yields the start path and its ancestor
directories closest first; the walk is taken here as that resulting list.
`get_repository` (vcs.py lines 277-287) scans it: a `.hg` directory selects
the Mercurial backend, else a `.git` entry selects the Git backend, else the
scan continues; an exhausted scan raises the repository-not-found error. -/
def get_repository (fs : FileSystem) : List String → Except VcsError RepoBackend
  | [] => Except.error .repositoryNotFound
  | path :: rest =>
      if fs.isdir (joinPath path ".hg") then Except.ok (.hg path)
      else if fs.pathExists (joinPath path ".git") then Except.ok (.git path)
      else get_repository fs rest

/-- `PUSHLOG_TMPL.format(repository, revision)` (vcs.py lines 17 and 293):
the template is the repository URL, then
`/json-pushes?version=2&changeset=`, the revision, and `&tipsonly=1&full=1`. -/
def pushlogUrl (repository revision : String) : String :=
  repository ++ "/json-pushes?version=2&changeset=" ++ revision
    ++ "&tipsonly=1&full=1"

/-- HTTP response as the code consumes it: the status (checked by
`raise_for_status`) and the decoded "pushes" mapping of the JSON body. -/
structure HttpResponse where
  status : Nat
  pushes : List (String × PushEntry)
  deriving Repr, DecidableEq

/-- Modelled from the spec for the HTTP collaborator: `requests.get` with its
timeout becomes the oracle `get`, and `raise_for_status` fails on any non-2xx
status. `query_pushlog` itself (vcs.py lines 295-298) performs the GET on the
pushlog URL with a 60-second timeout and returns the response or the
failure. -/
def query_pushlog (get : String → Nat → Except String HttpResponse)
    (url : String) : Except String HttpResponse :=
  match get url 60 with
  | .error e => Except.error e
  | .ok r =>
      if 200 ≤ r.status ∧ r.status < 300 then Except.ok r
      else Except.error ("HTTP status " ++ toString r.status)

/-- Modelled from the spec: the external `retry` combinator (redo library,
not part of this unit) runs the action up to the given number of remaining
attempts with a fixed `sleeptime`-second delay between attempts, retrying on
any failure, and returns the first success or the final failure.  The model
additionally returns the number of calls made and the total time slept, and
the action is indexed by attempt number so each network attempt can have its
own outcome. -/
def retry {α : Type} (action : Nat → Except String α) (sleeptime : Nat) :
    Nat → Nat → Except String α × Nat × Nat
  | attempt, 0 => (action attempt, 1, 0)
  | attempt, 1 => (action attempt, 1, 0)
  | attempt, remaining + 2 =>
      match action attempt with
      | .ok a => (Except.ok a, 1, 0)
      | .error _ =>
          let (res, calls, slept) := retry action sleeptime (attempt + 1) (remaining + 1)
          (res, calls + 1, slept + sleeptime)

/-- `find_hg_revision_push_info` end to end (vcs.py lines 290-317): build the
pushlog URL, run `query_pushlog` through `retry` with `attempts=5` and
`sleeptime=10`, then parse the chosen response's "pushes" mapping.  Returns
the result together with the number of HTTP attempts made and the total time
slept. -/
def find_hg_revision_push_info_full
    (get : Nat → String → Nat → Except String HttpResponse)
    (repository revision : String) : Except VcsError PushInfo × Nat × Nat :=
  let pushlog_url := pushlogUrl repository revision
  let (r, calls, slept) :=
    retry (fun attempt => query_pushlog (get attempt) pushlog_url) 10 1 5
  match r with
  | .error e => (Except.error (.network e), calls, slept)
  | .ok resp => (find_hg_revision_push_info repository revision resp.pushes, calls, slept)

/-! Helper lemmas shared by the claim theorems. -/

/-- Whether an `Except` value is a failure. -/
def isError {ε α : Type} : Except ε α → Bool
  | .error _ => true
  | .ok _ => false

theorem isError_true_iff {ε α : Type} (x : Except ε α) :
    isError x = true ↔ ∃ e, x = Except.error e := by
  cases x <;> simp [isError]

theorem string_length_beq_zero (s : String) : (s.length == 0) = true ↔ s = "" := by
  constructor
  · intro h
    have hl : s.length = 0 := by simpa using h
    have hd : s.data = [] := List.length_eq_zero.mp hl
    exact String.ext hd
  · intro h
    subst h
    rfl

/-- C1: for every pushlog "pushes" mapping, `find_hg_revision_push_info`
returns a value iff the mapping has exactly one entry; in that case the
returned record's pushid is the entry's key and pushdate/user are the
entry's date/user fields; otherwise it returns the ambiguous-push-info error
naming the revision and the full result set, and never a value. -/
theorem find_hg_revision_push_info_singleton_spec (repository revision : String)
    (pushes : List (String × PushEntry)) :
    ((∃ info, find_hg_revision_push_info repository revision pushes = Except.ok info)
        ↔ pushes.length = 1)
    ∧ (∀ pushid entry, pushes = [(pushid, entry)] →
        find_hg_revision_push_info repository revision pushes =
          Except.ok { pushdate := entry.date, pushid := pushid, user := entry.user })
    ∧ (pushes.length ≠ 1 →
        find_hg_revision_push_info repository revision pushes =
          Except.error (.ambiguousPushInfo repository revision pushes)) := by
  refine ⟨?_, ?_, ?_⟩
  · constructor
    · rintro ⟨info, h⟩
      match pushes with
      | [] => simp [find_hg_revision_push_info] at h
      | [(k, e)] => rfl
      | (k₁, e₁) :: (k₂, e₂) :: rest => simp [find_hg_revision_push_info] at h
    · intro h
      match pushes with
      | [(k, e)] =>
          exact ⟨{ pushdate := e.date, pushid := k, user := e.user }, rfl⟩
  · rintro pushid entry rfl
    rfl
  · intro h
    match pushes with
    | [] => rfl
    | [(k, e)] => simp at h
    | (k₁, e₁) :: (k₂, e₂) :: rest => rfl

/-- Witness for C1 at a singleton and at an empty mapping. -/
theorem find_hg_revision_push_info_singleton_spec_witness :
    find_hg_revision_push_info "https://repo" "abc" [("1", ⟨1700000000, "user@example.com"⟩)] =
      Except.ok { pushdate := 1700000000, pushid := "1", user := "user@example.com" }
    ∧ find_hg_revision_push_info "https://repo" "abc" [] =
      Except.error (.ambiguousPushInfo "https://repo" "abc" []) := by
  constructor
  · exact (find_hg_revision_push_info_singleton_spec "https://repo" "abc"
      [("1", ⟨1700000000, "user@example.com"⟩)]).2.1 "1" ⟨1700000000, "user@example.com"⟩ rfl
  · exact (find_hg_revision_push_info_singleton_spec "https://repo" "abc" []).2.2 (by decide)

/-- C3: for both backends and every revision argument (including none),
`get_commit_message` issues the fixed HEAD-targeting log query and returns the
same result as `get_commit_message none`: the revision parameter has no effect
on the output. -/
theorem get_commit_message_ignores_revision (run : List String → String)
    (revision : Option String) :
    HgRepository.get_commit_message run revision = run HgRepository.hgCommitMessageArgs
    ∧ HgRepository.get_commit_message run revision = HgRepository.get_commit_message run none
    ∧ GitRepository.get_commit_message run revision = run GitRepository.gitCommitMessageArgs
    ∧ GitRepository.get_commit_message run revision = GitRepository.get_commit_message run none :=
  ⟨rfl, rfl, rfl, rfl⟩

/-- C6: for both backends `working_directory_clean` is true iff the stripped
status output is empty; the tracked-change flags are always requested, the
untracked-file flags exactly when `untracked`, and the ignored-file flag
exactly when `ignored`. -/
theorem working_directory_clean_spec (run : List String → String)
    (untracked ignored : Bool) :
    (HgRepository.working_directory_clean run untracked ignored = true
        ↔ pyStrip (run (HgRepository.hgStatusArgs untracked ignored)) = "")
    ∧ ("--modified" ∈ HgRepository.hgStatusArgs untracked ignored
        ∧ "--added" ∈ HgRepository.hgStatusArgs untracked ignored
        ∧ "--removed" ∈ HgRepository.hgStatusArgs untracked ignored
        ∧ "--deleted" ∈ HgRepository.hgStatusArgs untracked ignored)
    ∧ ("--unknown" ∈ HgRepository.hgStatusArgs untracked ignored ↔ untracked = true)
    ∧ ("--ignored" ∈ HgRepository.hgStatusArgs untracked ignored ↔ ignored = true)
    ∧ (GitRepository.working_directory_clean run untracked ignored = true
        ↔ pyStrip (run (GitRepository.gitStatusArgs untracked ignored)) = "")
    ∧ ("status" ∈ GitRepository.gitStatusArgs untracked ignored
        ∧ "--porcelain" ∈ GitRepository.gitStatusArgs untracked ignored)
    ∧ ("--untracked-files=all" ∈ GitRepository.gitStatusArgs untracked ignored
        ↔ untracked = true)
    ∧ ("--untracked-files=no" ∈ GitRepository.gitStatusArgs untracked ignored
        ↔ untracked = false)
    ∧ ("--ignored" ∈ GitRepository.gitStatusArgs untracked ignored ↔ ignored = true) := by
  refine ⟨string_length_beq_zero _, ?_, ?_, ?_, string_length_beq_zero _, ?_, ?_, ?_, ?_⟩
    <;> cases untracked <;> cases ignored <;> decide

/-- First stripped line of a branch listing that is literally "main" or
"master", in listing order; stated from the spec's wording for comparison with
`GitRepository.guess_default_branch`. -/
def firstMainOrMaster (lines : List String) : Option String :=
  lines.findSome? (fun line =>
    if pyStrip line == "main" || pyStrip line == "master" then some (pyStrip line)
    else none)

theorem flatMap_filter_head (lines : List String) :
    (lines.flatMap (fun line =>
        (["main", "master"]).filter (fun candidate => candidate == pyStrip line))).head?
      = firstMainOrMaster lines := by
  induction lines with
  | nil => rfl
  | cons l rest ih =>
      rw [List.flatMap_cons, firstMainOrMaster, List.findSome?_cons]
      by_cases hm : pyStrip l = "main"
      · simp [List.filter, hm]
      · by_cases hms : pyStrip l = "master"
        · simp [List.filter, hms]
        · have h1 : ("main" == pyStrip l) = false := by
            simp [Ne.symm hm]
          have h2 : ("master" == pyStrip l) = false := by
            simp [Ne.symm hms]
          simp only [List.filter, h1, h2, List.nil_append]
          rw [if_neg (by simp [hm, hms])]
          exact ih

/-- C2 counterexample: with a branch listing that reports "master" before
"main", the final branch-scan step returns "master", not "main" — the
preference follows listing order, not the candidate order. -/
theorem guess_default_branch_listing_order_counterexample :
    GitRepository.guess_default_branch
        (fun args => if args == GitRepository.gitBranchListArgs then "master\nmain" else "")
      = Except.ok "master"
    ∧ ("master" : String) ≠ "main" := by
  constructor
  · rfl
  · decide

/-- C2 (amended): the final branch-scan step returns the first branch in the
listing whose stripped name is literally "main" or "master", in listing order;
if neither name occurs it returns the default-branch-not-found error. -/
theorem guess_default_branch_first_match (run : List String → String) :
    GitRepository.guess_default_branch run =
      match firstMainOrMaster (pySplitlines (run GitRepository.gitBranchListArgs)) with
      | some b => Except.ok b
      | none => Except.error (VcsError.defaultBranchNotFound []) := by
  unfold GitRepository.guess_default_branch GitRepository.guessBranchCandidates
  rw [← flatMap_filter_head]
  cases h : (pySplitlines (run GitRepository.gitBranchListArgs)).flatMap (fun line =>
      (["main", "master"]).filter (fun candidate => candidate == pyStrip line)) with
  | nil => simp [h]
  | cons b rest => simp [h]

theorem stripList_length_lt (l : List Char) (c : Char) (hlast : l.getLast? = some c)
    (hws : pyWhitespace c = true) : (stripList l).length < l.length := by
  have hlne : l ≠ [] := by
    intro h
    subst h
    simp at hlast
  have hlpos : 0 < l.length := List.length_pos.mpr hlne
  unfold stripList
  rw [List.length_reverse]
  by_cases hAnil : l.dropWhile pyWhitespace = []
  · rw [hAnil]
    simpa using hlpos
  · have hsuf : l.dropWhile pyWhitespace <:+ l := List.dropWhile_suffix _
    have hAlen : (l.dropWhile pyWhitespace).length ≤ l.length := hsuf.length_le
    have hAlast : (l.dropWhile pyWhitespace).getLast? = some c := by
      obtain ⟨t, ht⟩ := hsuf
      rw [← ht, List.getLast?_append] at hlast
      cases hAl : (l.dropWhile pyWhitespace).getLast? with
      | none => exact absurd (List.getLast?_eq_none_iff.mp hAl) hAnil
      | some a =>
          rw [hAl] at hlast
          simpa using hlast
    have hrev : (l.dropWhile pyWhitespace).reverse.head? = some c := by
      rw [List.head?_reverse]
      exact hAlast
    obtain ⟨tl, htl⟩ : ∃ tl, (l.dropWhile pyWhitespace).reverse = c :: tl := by
      cases hAr : (l.dropWhile pyWhitespace).reverse with
      | nil =>
          rw [hAr] at hrev
          simp at hrev
      | cons x xs =>
          rw [hAr] at hrev
          simp at hrev
          exact ⟨xs, by rw [hrev]⟩
    rw [htl]
    have hdrop : List.dropWhile pyWhitespace (c :: tl) = List.dropWhile pyWhitespace tl := by
      simp [List.dropWhile, hws]
    rw [hdrop]
    have h1 : (List.dropWhile pyWhitespace tl).length ≤ tl.length :=
      (List.dropWhile_suffix _).length_le
    have h2 : tl.length + 1 = (l.dropWhile pyWhitespace).length := by
      have hc := congrArg List.length htl
      rw [List.length_reverse] at hc
      simpa using hc.symm
    omega

theorem pyStrip_ne_of_trailing_newline (s t : String) (h : s = t ++ "\n") :
    pyStrip s ≠ s := by
  intro heq
  have hd : stripList s.data = s.data := congrArg String.data heq
  have hlen : (stripList s.data).length = s.data.length := congrArg List.length hd
  have hlast : s.data.getLast? = some '\n' := by
    subst h
    rw [String.data_append, List.getLast?_append]
    rfl
  have := stripList_length_lt s.data '\n' hlast (by decide)
  omega

/-- C10: `HgRepository.base_rev` returns the command output verbatim while
`head_rev` strips its output; for every base-rev command output ending in a
newline, the returned value keeps the trailing newline and differs from the
bare stripped hash. -/
theorem hg_base_rev_unstripped_spec (run : List String → String)
    (h : ∃ t, run HgRepository.hgBaseRevArgs = t ++ "\n") :
    HgRepository.base_rev run = run HgRepository.hgBaseRevArgs
    ∧ HgRepository.base_rev run ≠ pyStrip (run HgRepository.hgBaseRevArgs)
    ∧ HgRepository.head_rev run = pyStrip (run HgRepository.hgHeadRevArgs) := by
  obtain ⟨t, ht⟩ := h
  exact ⟨rfl, Ne.symm (pyStrip_ne_of_trailing_newline _ t ht), rfl⟩

/-- Witness for C10 at a concrete newline-terminated output. -/
theorem hg_base_rev_unstripped_spec_witness :
    HgRepository.base_rev
        (fun args => if args == HgRepository.hgBaseRevArgs then "abc\n" else "zzz")
      = "abc\n"
    ∧ HgRepository.base_rev
        (fun args => if args == HgRepository.hgBaseRevArgs then "abc\n" else "zzz")
      ≠ pyStrip ((fun args => if args == HgRepository.hgBaseRevArgs then "abc\n" else "zzz")
          HgRepository.hgBaseRevArgs) := by
  have h := hg_base_rev_unstripped_spec
    (fun args => if args == HgRepository.hgBaseRevArgs then "abc\n" else "zzz")
    ⟨"abc", by decide⟩
  exact ⟨h.1.trans (by decide), h.2.1⟩

/-- Model of Python `str.startswith("-")`: the first character is a dash. -/
def startsWithDash (s : String) : Bool :=
  match s.data with
  | [] => false
  | c :: _ => c == '-'

theorem filter_getLast?_of_getLast? {p : String → Bool} (l : List String) (x : String)
    (hl : l.getLast? = some x) (hp : p x = true) : (l.filter p).getLast? = some x := by
  rw [List.getLast?_eq_head?_reverse] at hl ⊢
  rw [← List.filter_reverse]
  obtain ⟨t, ht⟩ : ∃ t, l.reverse = x :: t := by
    cases h : l.reverse with
    | nil =>
        rw [h] at hl
        simp at hl
    | cons y ys =>
        rw [h] at hl
        simp at hl
        exact ⟨ys, by rw [hl]⟩
  rw [ht, List.filter_cons_of_pos hp]
  rfl

/-- Stated from the claim's wording for C7: the base revision is the last
listed boundary entry (a line carrying the "-" marker prefix) with the marker
removed, the head revision when the listing is empty, and nothing when the
listing is non-empty but has no boundary entry. -/
def gitBaseRevClaim (revListOutput head : String) : Option String :=
  if (pySplitlines revListOutput).isEmpty then some head
  else
    match ((pySplitlines revListOutput).filter (fun l => startsWithDash l)).getLast? with
    | some b => some (pyDropFirst b)
    | none => none

/-- C7 counterexample: on a listing whose final entry is not a boundary entry,
the code strips the first character of that final entry ("bbb" becomes "bb"),
while the claim's reading produces the last boundary entry stripped of its
marker ("aaa"). -/
theorem git_base_rev_last_entry_counterexample :
    GitRepository.base_rev
        (fun args => if args == GitRepository.gitRevListArgs then "-aaa\nbbb" else "hhh")
      = "bb"
    ∧ gitBaseRevClaim "-aaa\nbbb"
        (GitRepository.head_rev
          (fun args => if args == GitRepository.gitRevListArgs then "-aaa\nbbb" else "hhh"))
      = some "aaa"
    ∧ ("bb" : String) ≠ "aaa" :=
  ⟨by decide, by decide, by decide⟩

/-- C7 (amended): `base_rev` lists commits reachable from HEAD in topological
order with boundary markers, excluding remote-tracking refs; when the listing
is non-empty it returns the last listed entry with its first character
removed — which is the last boundary entry stripped of its marker whenever the
final entry carries the marker — and when the listing is empty it returns the
head revision. -/
theorem git_base_rev_spec (run : List String → String) :
    (pySplitlines (run GitRepository.gitRevListArgs) = [] →
      GitRepository.base_rev run = GitRepository.head_rev run)
    ∧ (∀ l, (pySplitlines (run GitRepository.gitRevListArgs)).getLast? = some l →
        GitRepository.base_rev run = pyDropFirst l)
    ∧ (∀ l, (pySplitlines (run GitRepository.gitRevListArgs)).getLast? = some l →
        startsWithDash l = true →
        gitBaseRevClaim (run GitRepository.gitRevListArgs) (GitRepository.head_rev run)
          = some (GitRepository.base_rev run)) := by
  have hb : GitRepository.base_rev run =
      match (pySplitlines (run GitRepository.gitRevListArgs)).getLast? with
      | some last => pyDropFirst last
      | none => GitRepository.head_rev run := rfl
  refine ⟨?_, ?_, ?_⟩
  · intro h
    rw [hb, h]
    rfl
  · intro l hl
    rw [hb, hl]
  · intro l hl hstart
    have hne : (pySplitlines (run GitRepository.gitRevListArgs)).isEmpty ≠ true := by
      intro he
      rw [List.isEmpty_iff.mp he] at hl
      simp at hl
    unfold gitBaseRevClaim
    rw [if_neg hne, filter_getLast?_of_getLast? _ l hl hstart, hb, hl]

/-- Witness for C7 at a single-boundary listing and at an empty listing. -/
theorem git_base_rev_spec_witness :
    GitRepository.base_rev
        (fun args => if args == GitRepository.gitRevListArgs then "-aaa" else "hhh")
      = "aaa"
    ∧ GitRepository.base_rev
        (fun args => if args == GitRepository.gitRevListArgs then "" else "hhh")
      = "hhh"
    ∧ gitBaseRevClaim "-aaa" "hhh" = some "aaa" := by
  have h1 := (git_base_rev_spec
    (fun args => if args == GitRepository.gitRevListArgs then "-aaa" else "hhh")).2.1
    "-aaa" (by decide)
  have h2 := (git_base_rev_spec
    (fun args => if args == GitRepository.gitRevListArgs then "" else "hhh")).1
    (by decide)
  exact ⟨h1.trans (by decide), h2.trans (by decide), by decide⟩

/-- C5: `GitRepository.remote_name` returns the remote component of the
upstream tracking ref when that query succeeds; a failure with a return code
other than 128 is re-raised unchanged; on a 128 failure it falls back to the
remote listing, returning a single listed remote whatever its name, else
"origin" when listed, else the ambiguous-remote error naming the
candidates. -/
theorem git_remote_name_spec (upstream : Except Nat String)
    (run : List String → String) :
    (∀ out, upstream = Except.ok out →
      GitRepository.remote_name upstream run =
        Except.ok ((pySplitSlash (pyStrip out)).headD ""))
    ∧ (∀ code, upstream = Except.error code → code ≠ 128 →
        GitRepository.remote_name upstream run =
          Except.error (.calledProcess code))
    ∧ (∀ r, upstream = Except.error 128 → pySplitlines (run ["remote"]) = [r] →
        GitRepository.remote_name upstream run = Except.ok r)
    ∧ (upstream = Except.error 128 → (pySplitlines (run ["remote"])).length ≠ 1 →
        (pySplitlines (run ["remote"])).contains "origin" = true →
        GitRepository.remote_name upstream run = Except.ok "origin")
    ∧ (upstream = Except.error 128 → (pySplitlines (run ["remote"])).length ≠ 1 →
        (pySplitlines (run ["remote"])).contains "origin" = false →
        GitRepository.remote_name upstream run =
          Except.error (.ambiguousRemote (pySplitlines (run ["remote"])))) := by
  refine ⟨?_, ?_, ?_, ?_, ?_⟩
  · rintro out rfl
    rfl
  · rintro code rfl hcode
    simp [GitRepository.remote_name, hcode]
  · rintro r rfl hr
    simp [GitRepository.remote_name, hr]
  · rintro rfl hlen horigin
    have hmem : "origin" ∈ pySplitlines (run ["remote"]) := by simpa using horigin
    simp [GitRepository.remote_name, hlen, hmem]
  · rintro rfl hlen horigin
    have hmem : "origin" ∉ pySplitlines (run ["remote"]) := by simpa using horigin
    simp [GitRepository.remote_name, hlen, hmem]

/-- Witness for C5: a configured upstream, a non-128 failure and a 128
fallback with two remotes including "origin", then with one remote. -/
theorem git_remote_name_spec_witness :
    GitRepository.remote_name (Except.ok "origin/main\n") (fun _ => "")
      = Except.ok "origin"
    ∧ GitRepository.remote_name (Except.error 1) (fun _ => "")
      = Except.error (.calledProcess 1)
    ∧ GitRepository.remote_name (Except.error 128) (fun _ => "upstream\norigin")
      = Except.ok "origin"
    ∧ GitRepository.remote_name (Except.error 128) (fun _ => "myfork")
      = Except.ok "myfork" := by
  refine ⟨?_, ?_, ?_, ?_⟩
  · exact ((git_remote_name_spec (Except.ok "origin/main\n") (fun _ => "")).1
      "origin/main\n" rfl).trans (congrArg Except.ok (by decide))
  · exact (git_remote_name_spec (Except.error 1) (fun _ => "")).2.1 1 rfl (by decide)
  · exact (git_remote_name_spec (Except.error 128)
      (fun _ => "upstream\norigin")).2.2.2.1 rfl (by decide) (by decide)
  · exact (git_remote_name_spec (Except.error 128) (fun _ => "myfork")).2.2.1
      "myfork" rfl (by decide)

/-- A directory has a VCS marker: a `.hg` directory or a `.git` entry. -/
def hasMarker (fs : FileSystem) (path : String) : Bool :=
  fs.isdir (joinPath path ".hg") || fs.pathExists (joinPath path ".git")

theorem get_repository_eq_find (fs : FileSystem) (paths : List String) :
    get_repository fs paths =
      match paths.find? (hasMarker fs) with
      | some path =>
          Except.ok (if fs.isdir (joinPath path ".hg") then RepoBackend.hg path
                     else RepoBackend.git path)
      | none => Except.error .repositoryNotFound := by
  induction paths with
  | nil => rfl
  | cons p rest ih =>
      rw [List.find?_cons]
      by_cases h1 : fs.isdir (joinPath p ".hg") = true
      · simp [get_repository, hasMarker, h1]
      · by_cases h2 : fs.pathExists (joinPath p ".git") = true
        · simp [get_repository, hasMarker, h1, h2]
        · have hm : hasMarker fs p = false := by
            simp [hasMarker, h1, h2]
          rw [hm]
          simpa [get_repository, h1, h2] using ih

/-- C8: `get_repository` scans the start path and its ancestors closest first
and returns a backend instantiated at the first one carrying a `.hg` directory
or a `.git` entry; if none carries a marker it returns the
repository-not-found error. -/
theorem get_repository_first_marker_spec (fs : FileSystem) (paths : List String) :
    (∀ path, paths.find? (hasMarker fs) = some path →
      get_repository fs paths =
        Except.ok (if fs.isdir (joinPath path ".hg") then RepoBackend.hg path
                   else RepoBackend.git path))
    ∧ (paths.find? (hasMarker fs) = none →
        get_repository fs paths = Except.error .repositoryNotFound) := by
  constructor
  · intro path hfind
    rw [get_repository_eq_find, hfind]
  · intro hfind
    rw [get_repository_eq_find, hfind]

/-- Witness for C8: the marker sits on the second ancestor; and a scan with no
marker anywhere fails. -/
theorem get_repository_first_marker_spec_witness :
    get_repository
        ⟨fun q => q == joinPath "/a" ".hg", fun _ => false⟩ ["/a/b", "/a"]
      = Except.ok (RepoBackend.hg "/a")
    ∧ get_repository ⟨fun _ => false, fun _ => false⟩ ["/a/b", "/a"]
      = Except.error .repositoryNotFound := by
  constructor
  · exact ((get_repository_first_marker_spec
      ⟨fun q => q == joinPath "/a" ".hg", fun _ => false⟩ ["/a/b", "/a"]).1
      "/a" (by decide)).trans (congrArg Except.ok (by decide))
  · exact (get_repository_first_marker_spec
      ⟨fun _ => false, fun _ => false⟩ ["/a/b", "/a"]).2 (by decide)

/-- C9: within a single scanned directory the `.hg` check precedes the `.git`
check, so a directory with both markers yields the Mercurial backend and the
Git backend is only ever chosen for a directory with no `.hg` directory. -/
theorem get_repository_hg_precedence (fs : FileSystem) (paths : List String) :
    (∀ path, get_repository fs paths = Except.ok (RepoBackend.git path) →
      fs.isdir (joinPath path ".hg") = false)
    ∧ (∀ path, paths.find? (hasMarker fs) = some path →
        fs.isdir (joinPath path ".hg") = true →
        get_repository fs paths = Except.ok (RepoBackend.hg path)) := by
  constructor
  · intro path hgit
    cases hfind : paths.find? (hasMarker fs) with
    | none =>
        have herr : get_repository fs paths = Except.error .repositoryNotFound := by
          rw [get_repository_eq_find, hfind]
        rw [herr] at hgit
        exact absurd hgit (by simp)
    | some q =>
        have hok : get_repository fs paths =
            Except.ok (if fs.isdir (joinPath q ".hg") then RepoBackend.hg q
                       else RepoBackend.git q) := by
          rw [get_repository_eq_find, hfind]
        rw [hok] at hgit
        simp only [Except.ok.injEq] at hgit
        by_cases hq : fs.isdir (joinPath q ".hg") = true
        · rw [if_pos hq] at hgit
          simp at hgit
        · rw [if_neg hq] at hgit
          have hqp : q = path := by simpa using hgit
          subst hqp
          simpa using hq
  · intro path hfind hhg
    have hok : get_repository fs paths =
        Except.ok (if fs.isdir (joinPath path ".hg") then RepoBackend.hg path
                   else RepoBackend.git path) := by
      rw [get_repository_eq_find, hfind]
    rw [hok, if_pos hhg]

/-- Witness for C9: a directory carrying both markers yields the Mercurial
backend; one carrying only `.git` yields the Git backend with no `.hg`. -/
theorem get_repository_hg_precedence_witness :
    get_repository ⟨fun _ => true, fun _ => true⟩ ["/a"]
      = Except.ok (RepoBackend.hg "/a")
    ∧ (⟨fun _ => false, fun _ => true⟩ : FileSystem).isdir (joinPath "/a" ".hg")
      = false := by
  constructor
  · exact (get_repository_hg_precedence ⟨fun _ => true, fun _ => true⟩ ["/a"]).2
      "/a" (by decide) (by decide)
  · exact (get_repository_hg_precedence ⟨fun _ => false, fun _ => true⟩ ["/a"]).1
      "/a" rfl

/-- One HTTP attempt of `find_hg_revision_push_info`: `query_pushlog` against
the pushlog URL, with the network oracle for the given attempt number. -/
def pushlogAttempt (get : Nat → String → Nat → Except String HttpResponse)
    (repository revision : String) (attempt : Nat) : Except String HttpResponse :=
  query_pushlog (get attempt) (pushlogUrl repository revision)

theorem retry_ok {α : Type} (action : Nat → Except String α) (st attempt : Nat)
    (a : α) (h : action attempt = Except.ok a) :
    ∀ remaining, retry action st attempt remaining = (Except.ok a, 1, 0) := by
  intro remaining
  match remaining with
  | 0 => simp [retry, h]
  | 1 => simp [retry, h]
  | r + 2 => simp [retry, h]

theorem retry_error_step {α : Type} (action : Nat → Except String α)
    (st attempt r : Nat) (e : String) (h : action attempt = Except.error e) :
    retry action st attempt (r + 2) =
      ((retry action st (attempt + 1) (r + 1)).1,
       (retry action st (attempt + 1) (r + 1)).2.1 + 1,
       (retry action st (attempt + 1) (r + 1)).2.2 + st) := by
  rcases hx : retry action st (attempt + 1) (r + 1) with ⟨res, calls, slept⟩
  simp [retry, h, hx]

theorem retry_succeeds {α : Type} (action : Nat → Except String α) (st : Nat)
    (a : α) :
    ∀ (m attempt remaining : Nat), m + 1 ≤ remaining →
      (∀ j, attempt ≤ j → j < attempt + m → isError (action j) = true) →
      action (attempt + m) = Except.ok a →
      retry action st attempt remaining = (Except.ok a, m + 1, st * m) := by
  intro m
  induction m with
  | zero =>
      intro attempt remaining _ _ hok
      simpa using retry_ok action st attempt a hok remaining
  | succ m ih =>
      intro attempt remaining hrem hfail hok
      obtain ⟨r, rfl⟩ : ∃ r, remaining = r + 2 := ⟨remaining - 2, by omega⟩
      have hfa : isError (action attempt) = true :=
        hfail attempt (le_refl _) (by omega)
      obtain ⟨e, he⟩ := (isError_true_iff _).mp hfa
      have hrec := ih (attempt + 1) (r + 1) (by omega)
        (fun j hj1 hj2 => hfail j (by omega) (by omega))
        (by
          have harg : attempt + 1 + m = attempt + (m + 1) := by omega
          rw [harg]
          exact hok)
      rw [retry_error_step action st attempt r e he, hrec]
      simp [Nat.mul_succ]

theorem retry_exhausts {α : Type} (action : Nat → Except String α) (st : Nat) :
    ∀ (n attempt : Nat) (e : String),
      (∀ j, attempt ≤ j → j < attempt + n + 1 → isError (action j) = true) →
      action (attempt + n) = Except.error e →
      retry action st attempt (n + 1) = (Except.error e, n + 1, st * n) := by
  intro n
  induction n with
  | zero =>
      intro attempt e _ herr
      have herr0 : action attempt = Except.error e := herr
      simp [retry, herr0]
  | succ n ih =>
      intro attempt e hfail herr
      have hfa : isError (action attempt) = true :=
        hfail attempt (le_refl _) (by omega)
      obtain ⟨e0, he0⟩ := (isError_true_iff _).mp hfa
      have hrec := ih (attempt + 1) e
        (fun j hj1 hj2 => hfail j (by omega) (by omega))
        (by
          have harg : attempt + 1 + n = attempt + (n + 1) := by omega
          rw [harg]
          exact herr)
      show retry action st attempt (n + 2) = _
      rw [retry_error_step action st attempt n e0 he0, hrec]
      simp [Nat.mul_succ]

/-- C4: the pushlog GET is issued with a 60-second timeout (the query depends
only on the oracle's behaviour at timeout 60) and is retried on any failure up
to 5 attempts with a 10-second delay between attempts: when attempt k (k ≤ 5)
is the first success, its response is the one parsed, exactly k requests are
made and 10·(k-1) seconds are slept; when all 5 attempts fail, the 5th
failure propagates, exactly 5 requests are made (never a 6th) and 40 seconds
are slept. -/
theorem find_hg_revision_push_info_retry_spec
    (get : Nat → String → Nat → Except String HttpResponse)
    (repository revision : String) :
    (∀ (g1 g2 : String → Nat → Except String HttpResponse) (u : String),
        g1 u 60 = g2 u 60 → query_pushlog g1 u = query_pushlog g2 u)
    ∧ (∀ k resp, 1 ≤ k → k ≤ 5 →
        (∀ j, 1 ≤ j → j < k →
          isError (pushlogAttempt get repository revision j) = true) →
        pushlogAttempt get repository revision k = Except.ok resp →
        find_hg_revision_push_info_full get repository revision =
          (find_hg_revision_push_info repository revision resp.pushes, k, 10 * (k - 1)))
    ∧ (∀ e,
        (∀ j, 1 ≤ j → j ≤ 5 →
          isError (pushlogAttempt get repository revision j) = true) →
        pushlogAttempt get repository revision 5 = Except.error e →
        find_hg_revision_push_info_full get repository revision =
          (Except.error (.network e), 5, 40)) := by
  refine ⟨?_, ?_, ?_⟩
  · intro g1 g2 u h
    unfold query_pushlog
    rw [h]
  · intro k resp hk1 hk5 hfail hok
    have hretry := retry_succeeds
      (fun attempt => query_pushlog (get attempt) (pushlogUrl repository revision))
      10 resp (k - 1) 1 5 (by omega)
      (fun j hj1 hj2 => hfail j hj1 (by omega))
      (by
        have harg : 1 + (k - 1) = k := by omega
        rw [harg]
        exact hok)
    simp only [find_hg_revision_push_info_full]
    rw [hretry]
    have hk : k - 1 + 1 = k := by omega
    rw [hk]
  · intro e hfail herr
    have hretry := retry_exhausts
      (fun attempt => query_pushlog (get attempt) (pushlogUrl repository revision))
      10 4 1 e
      (fun j hj1 hj2 => hfail j hj1 (by omega))
      herr
    simp only [find_hg_revision_push_info_full]
    rw [hretry]

/-- Witness for C4: the first two attempts fail and the third succeeds, so the
third response is parsed after 3 requests and 20 seconds of sleep; with every
attempt failing, the final failure propagates after exactly 5 requests. -/
theorem find_hg_revision_push_info_retry_spec_witness :
    find_hg_revision_push_info_full
        (fun attempt _ _ =>
          if 3 ≤ attempt then Except.ok ⟨200, [("1", ⟨7, "u"⟩)]⟩
          else Except.error "connection error")
        "https://repo" "abc"
      = (Except.ok { pushdate := 7, pushid := "1", user := "u" }, 3, 20)
    ∧ find_hg_revision_push_info_full
        (fun _ _ _ => Except.error "connection error") "https://repo" "abc"
      = (Except.error (.network "connection error"), 5, 40) := by
  constructor
  · have h := (find_hg_revision_push_info_retry_spec
      (fun attempt _ _ =>
        if 3 ≤ attempt then Except.ok ⟨200, [("1", ⟨7, "u"⟩)]⟩
        else Except.error "connection error")
      "https://repo" "abc").2.1 3 ⟨200, [("1", ⟨7, "u"⟩)]⟩
      (by omega) (by omega)
      (by
        intro j h1 h2
        interval_cases j <;> decide)
      rfl
    exact h.trans rfl
  · have h := (find_hg_revision_push_info_retry_spec
      (fun _ _ _ => Except.error "connection error")
      "https://repo" "abc").2.2 "connection error"
      (by
        intro j h1 h2
        interval_cases j <;> decide)
      rfl
    exact h

end Vcs
